import Mathlib

/-!
Verification development for the errorblob storage core
(src/errorblob/models.py, src/errorblob/storage/local.py,
src/errorblob/storage/turbopuffer_backend.py).

Python strings are modelled as lists of characters, Python floats as
rationals, and the local JSON file as the list of entries it holds.
-/

/-- Python datetime value (models.py ErrorEntry.created_at): the fields a
datetime object carries, at microsecond precision. -/
structure PyDateTime where
  year : Nat
  month : Nat
  day : Nat
  hour : Nat
  minute : Nat
  second : Nat
  microsecond : Nat
deriving DecidableEq

/-- Invariants the Python datetime constructor enforces on its fields
(MINYEAR = 1, MAXYEAR = 9999, and the usual calendar/clock bounds). -/
def PyDateTime.Valid (d : PyDateTime) : Prop :=
  1 ≤ d.year ∧ d.year ≤ 9999 ∧ 1 ≤ d.month ∧ d.month ≤ 12 ∧
  1 ≤ d.day ∧ d.day ≤ 31 ∧ d.hour ≤ 23 ∧ d.minute ≤ 59 ∧
  d.second ≤ 59 ∧ d.microsecond ≤ 999999

instance (d : PyDateTime) : Decidable d.Valid := by
  unfold PyDateTime.Valid; infer_instance

/-- models.py ErrorEntry: one error/fix record. -/
structure ErrorEntry where
  id : List Char
  error_text : List Char
  message : List Char
  created_at : PyDateTime
  author : Option (List Char)
  tags : List (List Char)
deriving DecidableEq

/-- models.py SearchResult: a matched entry with its relevance score. -/
structure SearchResult where
  entry : ErrorEntry
  score : ℚ
deriving DecidableEq

/-- Python str.lower on one character, for the ASCII range the code deals in. -/
def pyLowerChar (c : Char) : Char :=
  if 'A' ≤ c ∧ c ≤ 'Z' then Char.ofNat (c.toNat + 32) else c

/-- Python str.lower. -/
def pyLower (s : List Char) : List Char := s.map pyLowerChar

/-- Python `x in y` on strings: substring containment. -/
def pyIn (a b : List Char) : Bool := decide (a <:+: b)

/-!
difflib.SequenceMatcher as local.py calls it: SequenceMatcher(None, a, b),
so isjunk is None and the junk set bjunk is empty (the two junk extension
loops of find_longest_match never fire); autojunk is left at its default
True, so popular elements of b are purged from b2j when len(b) >= 200.
-/

/-- SequenceMatcher.__chain_b: the ascending list of indices of c in b,
emptied when autojunk classifies c as popular (len(b) >= 200 and the
index count exceeds len(b) // 100 + 1). -/
def b2j (b : List Char) (c : Char) : List Nat :=
  let idxs := (b.enum.filter (fun p => p.2 == c)).map Prod.fst
  if 200 ≤ b.length ∧ b.length / 100 + 1 < idxs.length then [] else idxs

/-- The j2len dict of find_longest_match, as an association list;
absent keys read as 0. -/
def dget (d : List (Nat × Nat)) (j : Nat) : Nat :=
  match d.find? (fun p => p.1 == j) with
  | some p => p.2
  | none => 0

/-- The running best match of find_longest_match: besti, bestj, bestsize. -/
structure MatchBest where
  besti : Nat
  bestj : Nat
  bestsize : Nat
deriving DecidableEq

/-- Inner loop of find_longest_match over the candidate j positions of one
row i: builds the fresh newj2len and updates the best match when the run
length k exceeds bestsize. -/
def flm_inner (i : Nat) (j2len : List (Nat × Nat)) :
    List Nat → List (Nat × Nat) → MatchBest → List (Nat × Nat) × MatchBest
  | [], newj2len, best => (newj2len, best)
  | j :: js, newj2len, best =>
    let k := (if j = 0 then 0 else dget j2len (j - 1)) + 1
    let best' := if best.bestsize < k then ⟨i + 1 - k, j + 1 - k, k⟩ else best
    flm_inner i j2len js ((j, k) :: newj2len) best'

/-- Outer loop of find_longest_match over i in range(alo, ahi); the j
candidates are b2j[a[i]] with j < blo skipped and the scan broken off at
j >= bhi (the lists are ascending). -/
def flm_outer (a b : List Char) (blo bhi : Nat) :
    List Nat → List (Nat × Nat) → MatchBest → MatchBest
  | [], _, best => best
  | i :: is, j2len, best =>
    let js := ((b2j b (a.getD i ' ')).filter (fun j => decide (blo ≤ j))).takeWhile
      (fun j => decide (j < bhi))
    let (newj2len, best') := flm_inner i j2len js [] best
    flm_outer a b blo bhi is newj2len best'

/-- First extension loop of find_longest_match: grow the match downward
while the adjacent characters are equal (the junk guard is vacuous since
bjunk is empty). -/
def flm_extend_lo (a b : List Char) (alo blo : Nat) (best : MatchBest) : MatchBest :=
  if h : alo < best.besti ∧ blo < best.bestj ∧
      a.getD (best.besti - 1) ' ' = b.getD (best.bestj - 1) ' ' then
    flm_extend_lo a b alo blo ⟨best.besti - 1, best.bestj - 1, best.bestsize + 1⟩
  else best
termination_by best.besti
decreasing_by omega

/-- Second extension loop of find_longest_match: grow the match upward
while the adjacent characters are equal. -/
def flm_extend_hi (a b : List Char) (ahi bhi : Nat) (best : MatchBest) : MatchBest :=
  if h : best.besti + best.bestsize < ahi ∧ best.bestj + best.bestsize < bhi ∧
      a.getD (best.besti + best.bestsize) ' ' = b.getD (best.bestj + best.bestsize) ' ' then
    flm_extend_hi a b ahi bhi ⟨best.besti, best.bestj, best.bestsize + 1⟩
  else best
termination_by ahi - (best.besti + best.bestsize)
decreasing_by omega

/-- SequenceMatcher.find_longest_match on a[alo:ahi] x b[blo:bhi]. -/
def find_longest_match (a b : List Char) (alo ahi blo bhi : Nat) : MatchBest :=
  let best := flm_outer a b blo bhi (List.range' alo (ahi - alo)) [] ⟨alo, blo, 0⟩
  flm_extend_hi a b ahi bhi (flm_extend_lo a b alo blo best)

/-- Total size of the matching blocks of get_matching_blocks on
a[alo:ahi] x b[blo:bhi] (the quantity SequenceMatcher.ratio sums): the
recursive divide and conquer around each longest match.  The fuel bounds
the recursion depth; the top-level call passes more than the combined
span, which the splitting never exceeds. -/
def matching_total (a b : List Char) : Nat → Nat → Nat → Nat → Nat → Nat
  | 0, _, _, _, _ => 0
  | fuel + 1, alo, ahi, blo, bhi =>
    let best := find_longest_match a b alo ahi blo bhi
    if best.bestsize = 0 then 0
    else
      matching_total a b fuel alo best.besti blo best.bestj
        + best.bestsize
        + matching_total a b fuel (best.besti + best.bestsize) ahi
            (best.bestj + best.bestsize) bhi

/-- SequenceMatcher(None, a, b).ratio(): 2.0 * matches / (len(a) + len(b)),
and 1.0 when both strings are empty (difflib._calculate_ratio). -/
def ratioOf (a b : List Char) : ℚ :=
  let m_total := matching_total a b (a.length + b.length + 1) 0 a.length 0 b.length
  if a.length + b.length ≠ 0 then
    2 * (m_total : ℚ) / (((a.length : ℚ)) + ((b.length : ℚ)))
  else 1

/-- Base score of local.py search for one entry: 0.9 when the lowered
query and lowered error_text are substrings of one another in either
direction, else the SequenceMatcher ratio. -/
def entry_base_score (query_lower : List Char) (e : ErrorEntry) : ℚ :=
  let error_lower := pyLower e.error_text
  if pyIn query_lower error_lower || pyIn error_lower query_lower then 9/10
  else ratioOf query_lower error_lower

/-- Combined score of local.py search for one entry: the base score plus
the message ratio weighted by 0.3, never below the base score alone. -/
def entry_combined_score (query : List Char) (e : ErrorEntry) : ℚ :=
  let query_lower := pyLower query
  let score := entry_base_score query_lower e
  let message_score := ratioOf query_lower (pyLower e.message) * (3/10)
  max score (score + message_score)

/-- LocalStorage.search: score every stored entry, keep those with
combined score above 0.2, sort descending by score (Python list.sort is a
stable merge sort), truncate to limit. -/
def LocalStorage.search (entries : List ErrorEntry) (query : List Char)
    (limit : Nat) : List SearchResult :=
  let results := entries.filterMap (fun e =>
    let combined_score := entry_combined_score query e
    if (1/5 : ℚ) < combined_score then some ⟨e, combined_score⟩ else none)
  (results.mergeSort (fun r1 r2 => decide (r2.score ≤ r1.score))).take limit

/-- LocalStorage.commit: append the entry and write the file back. -/
def LocalStorage.commit (entries : List ErrorEntry) (e : ErrorEntry) :
    List ErrorEntry :=
  entries ++ [e]

/-- LocalStorage.get_all: the stored entries as loaded from the file. -/
def LocalStorage.get_all (entries : List ErrorEntry) : List ErrorEntry :=
  entries

/-- LocalStorage.delete: drop the entries whose id matches; the file is
rewritten only when the collection shrank.  Returns the resulting file
contents, whether a save was performed, and the boolean the method
returns. -/
def LocalStorage.delete (entries : List ErrorEntry) (error_id : List Char) :
    List ErrorEntry × Bool × Bool :=
  let filtered := entries.filter (fun e => !(e.id == error_id))
  if filtered.length < entries.length then (filtered, true, true)
  else (entries, false, false)

/-- LocalStorage.count: the length of the loaded collection. -/
def LocalStorage.count (entries : List ErrorEntry) : Nat :=
  entries.length

/-!  ISO-8601 serialization of datetimes, as the local JSON layout and the
remote row format carry them. -/

/-- The ASCII digit character of d (for d < 10). -/
def digitChar (d : Nat) : Char := Char.ofNat (48 + d)

/-- The w low decimal digits of n, zero padded to width w (Python
%0wd formatting, faithful whenever n < 10^w). -/
def padDigits : Nat → Nat → List Char
  | 0, _ => []
  | w + 1, n => padDigits w (n / 10) ++ [digitChar (n % 10)]

/-- Python datetime.isoformat(): YYYY-MM-DDTHH:MM:SS, with .ffffff
appended exactly when the microsecond field is nonzero. -/
def isoformat (d : PyDateTime) : List Char :=
  padDigits 4 d.year ++ ('-' :: (padDigits 2 d.month ++ ('-' :: (padDigits 2 d.day
    ++ ('T' :: (padDigits 2 d.hour ++ (':' :: (padDigits 2 d.minute
    ++ (':' :: (padDigits 2 d.second
    ++ (if d.microsecond = 0 then []
        else '.' :: padDigits 6 d.microsecond)))))))))))

/-- Numeric value of an ASCII digit character. -/
def digitVal (c : Char) : Nat := c.toNat - 48

/-- Whether c is an ASCII decimal digit. -/
def isDigitChar (c : Char) : Bool := decide ('0' ≤ c ∧ c ≤ '9')

/-- Read exactly w digit characters off the front of cs as a number. -/
def parseFixedNat (w : Nat) (cs : List Char) : Option (Nat × List Char) :=
  let ds := cs.take w
  if ds.length == w && ds.all isDigitChar then
    some (ds.foldl (fun acc c => acc * 10 + digitVal c) 0, cs.drop w)
  else none

/-- Require character c at the front of cs. -/
def expectChar (c : Char) (cs : List Char) : Option (List Char) :=
  match cs with
  | c' :: rest => if c' = c then some rest else none
  | [] => none

/-- Python datetime.fromisoformat, specialized to the fixed-width
date-time strings isoformat emits (with or without fractional seconds);
any other input is a parse failure, which models the ValueError the
Python call raises. -/
def fromIsoChars (cs : List Char) : Option PyDateTime := do
  let (y, cs) ← parseFixedNat 4 cs
  let cs ← expectChar '-' cs
  let (mo, cs) ← parseFixedNat 2 cs
  let cs ← expectChar '-' cs
  let (da, cs) ← parseFixedNat 2 cs
  let cs ← expectChar 'T' cs
  let (h, cs) ← parseFixedNat 2 cs
  let cs ← expectChar ':' cs
  let (mi, cs) ← parseFixedNat 2 cs
  let cs ← expectChar ':' cs
  let (s, cs) ← parseFixedNat 2 cs
  if cs.isEmpty then some ⟨y, mo, da, h, mi, s, 0⟩
  else do
    let cs ← expectChar '.' cs
    let (us, cs) ← parseFixedNat 6 cs
    if cs.isEmpty then some ⟨y, mo, da, h, mi, s, us⟩ else none

/-!  The local JSON file layout: one row per entry, with created_at
serialized to an ISO-8601 string (ErrorEntry.model_dump(mode="json") on
save, ErrorEntry.model_validate on load). -/

/-- One serialized record of the local JSON file. -/
structure LocalRow where
  id : List Char
  error_text : List Char
  message : List Char
  created_at : List Char
  author : Option (List Char)
  tags : List (List Char)
deriving DecidableEq

/-- ErrorEntry.model_dump(mode="json"): the JSON row for one entry. -/
def entryToLocalRow (e : ErrorEntry) : LocalRow :=
  { id := e.id
    error_text := e.error_text
    message := e.message
    created_at := isoformat e.created_at
    author := e.author
    tags := e.tags }

/-- ErrorEntry.model_validate on one JSON row: fails when the timestamp
string does not parse. -/
def localRowToEntry (r : LocalRow) : Option ErrorEntry :=
  (fromIsoChars r.created_at).map (fun d =>
    { id := r.id
      error_text := r.error_text
      message := r.message
      created_at := d
      author := r.author
      tags := r.tags })

/-- LocalStorage._save_entries: the rows written to the file. -/
def LocalStorage.save_entries (entries : List ErrorEntry) : List LocalRow :=
  entries.map entryToLocalRow

/-- LocalStorage._load_entries: validate every row of the file. -/
def LocalStorage.load_entries (rows : List LocalRow) : Option (List ErrorEntry) :=
  rows.mapM localRowToEntry

/-!  Remote backend (turbopuffer_backend.py).  The medium is the external
namespaced store: its row collection plus flags saying whether each kind
of call raises.  BM25 ranking is the medium's own and is taken as an
opaque parameter. -/

/-- One row of the remote namespace, with the attribute encoding the
commit path writes (created_at an ISO string, empty-string sentinel for a
missing author, tags comma-joined). -/
structure TpufRow where
  id : List Char
  error_text : List Char
  message : List Char
  combined_text : List Char
  created_at : List Char
  author : List Char
  tags : List Char
deriving DecidableEq

/-- An exception raised by the remote medium. -/
inductive MediumError
  | apiError
deriving DecidableEq

/-- The remote medium: its rows and whether each operation kind raises. -/
structure TpufMedium where
  rows : List TpufRow
  write_fails : Bool
  query_fails : Bool
  export_fails : Bool
deriving DecidableEq

/-- Tag encoding on the remote commit path (line 51):
",".join(entry.tags) if entry.tags else "". -/
def pyJoin (sep : Char) : List (List Char) → List Char
  | [] => []
  | [t] => t
  | t :: ts => t ++ sep :: pyJoin sep ts

/-- See pyJoin: the commit path's tags attribute. -/
def tagsEncode (tags : List (List Char)) : List Char :=
  if tags.isEmpty then [] else pyJoin ',' tags

/-- Python str.isspace for the ASCII whitespace characters str.strip
removes by default. -/
def pyIsSpace (c : Char) : Bool :=
  c == ' ' || c == '\t' || c == '\n' || c == '\r' || c == '\x0b' || c == '\x0c'

/-- Python str.strip(): drop leading and trailing whitespace. -/
def pyStrip (s : List Char) : List Char :=
  ((s.dropWhile pyIsSpace).reverse.dropWhile pyIsSpace).reverse

/-- Python str.split on a one-character separator (never collapses
adjacent separators; the split of "" is [""]). -/
def pySplitAux (sep : Char) : List Char → List Char → List (List Char)
  | [], acc => [acc.reverse]
  | c :: cs, acc =>
    if c = sep then acc.reverse :: pySplitAux sep cs []
    else pySplitAux sep cs (c :: acc)

/-- See pySplitAux. -/
def pySplit (sep : Char) (s : List Char) : List (List Char) :=
  pySplitAux sep s []

/-- Tag decoding on the remote read paths (search lines 99-100, get_all):
[t.strip() for t in tags_str.split(",") if t.strip()]. -/
def tagsDecode (tags_str : List Char) : List (List Char) :=
  (pySplit ',' tags_str).filterMap (fun t =>
    let ts := pyStrip t
    if ts.isEmpty then none else some ts)

/-- The row TurbopufferStorage.commit upserts for an entry: combined_text
is "error_text message", author uses the empty-string sentinel, tags are
comma-joined. -/
def entryToTpufRow (e : ErrorEntry) : TpufRow :=
  { id := e.id
    error_text := e.error_text
    message := e.message
    combined_text := e.error_text ++ ' ' :: e.message
    created_at := isoformat e.created_at
    author := e.author.getD []
    tags := tagsEncode e.tags }

/-- TurbopufferStorage.commit: upsert the encoded row, with no exception
handling - a failing medium write propagates to the caller. -/
def TurbopufferStorage.commit (m : TpufMedium) (e : ErrorEntry) :
    Except MediumError TpufMedium :=
  if m.write_fails then .error .apiError
  else
    let row := entryToTpufRow e
    .ok { m with rows := m.rows.filter (fun r => !(r.id == row.id)) ++ [row] }

/-- Row-to-entry mapping shared by the remote read paths: tags split on
comma and trimmed, empty author mapped back to absent, created_at parsed
from ISO-8601 (an empty attribute falls back to now; an unparsable one
raises, which the enclosing handler turns into the empty result). -/
def rowToEntry (now : PyDateTime) (row : TpufRow) : Option ErrorEntry := do
  let tags := tagsDecode row.tags
  let created_at ←
    if row.created_at.isEmpty then some now else fromIsoChars row.created_at
  let author := if row.author.isEmpty then none else some row.author
  some { id := row.id
         error_text := row.error_text
         message := row.message
         created_at := created_at
         author := author
         tags := tags }

/-- TurbopufferStorage.search: BM25-ranked query on combined_text with
top_k = limit, rows mapped back to entries with the medium's relevance
value as score; any exception from the medium or the row parsing is
swallowed and yields the empty list. -/
def TurbopufferStorage.search (now : PyDateTime)
    (rank : List Char → List TpufRow → List (TpufRow × ℚ))
    (m : TpufMedium) (query : List Char) (limit : Nat) : List SearchResult :=
  if m.query_fails then []
  else
    match ((rank query m.rows).take limit).mapM (fun rs =>
        (rowToEntry now rs.1).map (fun e => SearchResult.mk e rs.2)) with
    | some results => results
    | none => []

/-- TurbopufferStorage.get_all: export every row and map it back to an
entry; any exception from the medium or the row parsing is swallowed and
yields the empty list. -/
def TurbopufferStorage.get_all (now : PyDateTime) (m : TpufMedium) :
    List ErrorEntry :=
  if m.export_fails then []
  else
    match m.rows.mapM (rowToEntry now) with
    | some entries => entries
    | none => []

/-- TurbopufferStorage.delete: issue the delete write and return True;
an exception from the medium is swallowed and returns False.  The medium
state is returned alongside. -/
def TurbopufferStorage.delete (m : TpufMedium) (error_id : List Char) :
    TpufMedium × Bool :=
  if m.write_fails then (m, false)
  else ({ m with rows := m.rows.filter (fun r => !(r.id == error_id)) }, true)

/-- TurbopufferStorage.count: the length of get_all. -/
def TurbopufferStorage.count (now : PyDateTime) (m : TpufMedium) : Nat :=
  (TurbopufferStorage.get_all now m).length

/-!  The ErrorEntry constructor (pydantic BaseModel validation): each
field declared with Field(...) is required and must be provided; provided
string values are accepted unchanged - no non-emptiness constraint is
declared on error_text or message.  The id and created_at defaults come
from their default factories (uuid4 and datetime.now), passed here as
parameters. -/

/-- A pydantic ValidationError. -/
inductive ValidationError
  | missingRequiredField
deriving DecidableEq

/-- The ErrorEntry constructor: reject when a required field is absent,
otherwise build the record with defaults for the optional ones. -/
def ErrorEntry.validate (genId : List Char) (now : PyDateTime)
    (error_text : Option (List Char)) (message : Option (List Char))
    (author : Option (List Char)) (tags : List (List Char)) :
    Except ValidationError ErrorEntry :=
  match error_text, message with
  | some et, some msg =>
    .ok { id := genId
          error_text := et
          message := msg
          created_at := now
          author := author
          tags := tags }
  | _, _ => .error .missingRequiredField

/-!  Concrete values used by witnesses and counterexamples. -/

/-- A fixed clock value standing in for datetime.now(). -/
def now0 : PyDateTime := ⟨2024, 5, 17, 12, 30, 45, 0⟩

/-- A generated id standing in for uuid4(). -/
def genId0 : List Char := "00000000-0000-4000-8000-000000000000".toList

/-- A sample stored entry. -/
def entryA : ErrorEntry :=
  { id := "id-a".toList
    error_text := "ModuleNotFoundError: No module named foo".toList
    message := "Run pip install foo".toList
    created_at := now0
    author := some "alice".toList
    tags := ["python".toList] }

/-- A second sample entry with a distinct id. -/
def entryB : ErrorEntry :=
  { id := "id-b".toList
    error_text := "TypeError: unsupported operand".toList
    message := "Cast the operand first".toList
    created_at := ⟨2024, 5, 17, 12, 31, 0, 250000⟩
    author := none
    tags := [] }

/-- A healthy, empty remote medium. -/
def mediumOK : TpufMedium := ⟨[], false, false, false⟩

/-- A remote medium every call to which raises. -/
def mediumDown : TpufMedium := ⟨[], true, true, true⟩

/-- C6: for every backend state, count() equals the length of get_all();
the remote backend computes count exactly as the length of its export. -/
theorem count_eq_length_get_all (entries : List ErrorEntry) (now : PyDateTime)
    (m : TpufMedium) :
    LocalStorage.count entries = (LocalStorage.get_all entries).length ∧
    TurbopufferStorage.count now m = (TurbopufferStorage.get_all now m).length :=
  ⟨rfl, rfl⟩

/-- C4: when the remote medium raises, commit propagates the error while
search, get_all and delete absorb it, returning [], [] and false. -/
theorem remote_failure_propagation (m : TpufMedium) (e : ErrorEntry)
    (now : PyDateTime) (rank : List Char → List TpufRow → List (TpufRow × ℚ))
    (q error_id : List Char) (limit : Nat)
    (hw : m.write_fails = true) (hq : m.query_fails = true)
    (hx : m.export_fails = true) :
    TurbopufferStorage.commit m e = .error .apiError ∧
    TurbopufferStorage.search now rank m q limit = [] ∧
    TurbopufferStorage.get_all now m = [] ∧
    (TurbopufferStorage.delete m error_id).2 = false := by
  refine ⟨?_, ?_, ?_, ?_⟩ <;>
    simp [TurbopufferStorage.commit, TurbopufferStorage.search,
      TurbopufferStorage.get_all, TurbopufferStorage.delete, hw, hq, hx]

/-- Witness for remote_failure_propagation at a concrete dead medium. -/
theorem remote_failure_propagation_witness :
    TurbopufferStorage.commit mediumDown entryA = .error .apiError ∧
    (TurbopufferStorage.delete mediumDown "id-a".toList).2 = false :=
  ⟨(remote_failure_propagation mediumDown entryA now0 (fun _ _ => [])
      [] "id-a".toList 5 rfl rfl rfl).1,
   (remote_failure_propagation mediumDown entryA now0 (fun _ _ => [])
      [] "id-a".toList 5 rfl rfl rfl).2.2.2⟩

/-- C10: local delete of an absent id leaves the collection unchanged,
performs no file write, and returns false. -/
theorem local_delete_absent_id_frame (entries : List ErrorEntry)
    (error_id : List Char) (h : ∀ e ∈ entries, e.id ≠ error_id) :
    LocalStorage.delete entries error_id = (entries, false, false) := by
  unfold LocalStorage.delete
  have hf : entries.filter (fun e => !(e.id == error_id)) = entries :=
    List.filter_eq_self.mpr (fun e he => by simp [h e he])
  simp [hf]

/-- Witness for local_delete_absent_id_frame on a concrete store. -/
theorem local_delete_absent_id_frame_witness :
    LocalStorage.delete [entryA] "id-z".toList = ([entryA], false, false) :=
  local_delete_absent_id_frame [entryA] "id-z".toList (by decide)

/-- C5 counterexample: the ErrorEntry constructor accepts an empty
error_text (and, symmetrically, an empty message); no validation error is
raised for empty strings. -/
theorem entry_constructor_accepts_empty_text :
    ErrorEntry.validate genId0 now0 (some []) (some "run pip install foo".toList)
        none [] =
      .ok { id := genId0
            error_text := []
            message := "run pip install foo".toList
            created_at := now0
            author := none
            tags := [] } ∧
    ErrorEntry.validate genId0 now0 (some "SomeError".toList) (some []) none [] =
      .ok { id := genId0
            error_text := "SomeError".toList
            message := []
            created_at := now0
            author := none
            tags := [] } :=
  ⟨rfl, rfl⟩

/-- C5 amended: the constructor rejects exactly a missing required field;
any provided strings, empty ones included, are accepted unchanged. -/
theorem entry_constructor_requires_fields_only (genId : List Char)
    (now : PyDateTime) (error_text message author : Option (List Char))
    (tags : List (List Char)) :
    ((ErrorEntry.validate genId now error_text message author tags).isOk ↔
      error_text.isSome = true ∧ message.isSome = true) ∧
    (∀ et msg, ErrorEntry.validate genId now (some et) (some msg) author tags =
      .ok { id := genId
            error_text := et
            message := msg
            created_at := now
            author := author
            tags := tags }) := by
  constructor
  · cases error_text <;> cases message <;>
      simp [ErrorEntry.validate, Except.isOk, Except.toBool]
  · intro et msg; rfl

/-- C3 counterexample: the remote backend's delete of an id absent from
the namespace issues the delete write, removes nothing, and still
returns true. -/
theorem remote_delete_absent_id_returns_true :
    (TurbopufferStorage.delete mediumOK "id-x".toList).2 = true ∧
    (TurbopufferStorage.delete mediumOK "id-x".toList).1 = mediumOK ∧
    TurbopufferStorage.get_all now0 (TurbopufferStorage.delete mediumOK "id-x".toList).1 =
      TurbopufferStorage.get_all now0 mediumOK := by
  refine ⟨rfl, rfl, rfl⟩

/-- C3 amended: the local backend's delete returns true exactly when a
record with the id was present (so removed), removes every such record,
and a second delete of the same id returns false; the remote backend's
delete returns true exactly when the medium write succeeds, regardless of
whether the id was present. -/
theorem delete_return_semantics (entries : List ErrorEntry)
    (error_id : List Char) (m : TpufMedium) :
    ((LocalStorage.delete entries error_id).2.2 = true ↔
      ∃ e ∈ entries, e.id = error_id) ∧
    (∀ e ∈ (LocalStorage.delete entries error_id).1, e.id ≠ error_id) ∧
    (LocalStorage.delete (LocalStorage.delete entries error_id).1 error_id).2.2 =
      false ∧
    (TurbopufferStorage.delete m error_id).2 = !m.write_fails := by
  have key : ∀ l : List ErrorEntry, (LocalStorage.delete l error_id).2.2 = true ↔
      ∃ e ∈ l, e.id = error_id := by
    intro l
    unfold LocalStorage.delete
    by_cases hlt : (l.filter (fun e => !(e.id == error_id))).length < l.length
    · simp only [hlt, if_pos]
      simpa using List.length_filter_lt_length_iff_exists.mp hlt
    · simp only [hlt, if_neg, not_false_eq_true]
      constructor
      · intro h; exact absurd h (by simp)
      · intro hex
        exact absurd (List.length_filter_lt_length_iff_exists.mpr
          (by simpa using hex)) hlt
  have frame : ∀ e ∈ (LocalStorage.delete entries error_id).1, e.id ≠ error_id := by
    intro e he
    unfold LocalStorage.delete at he
    by_cases hlt : (entries.filter (fun x => !(x.id == error_id))).length <
        entries.length
    · simp only [hlt, if_pos] at he
      have := (List.mem_filter.mp he).2
      simpa using this
    · simp only [hlt, if_neg, not_false_eq_true] at he
      have hall : ∀ x ∈ entries, x.id ≠ error_id := by
        intro x hx
        have hle := List.length_filter_le (fun x => !(x.id == error_id)) entries
        have heq : (entries.filter (fun x => !(x.id == error_id))).length =
            entries.length := by omega
        have := List.filter_length_eq_length.mp heq x hx
        simpa using this
      exact hall e he
  refine ⟨key entries, frame, ?_, ?_⟩
  · have : ¬ ∃ e ∈ (LocalStorage.delete entries error_id).1, e.id = error_id := by
      rintro ⟨e, he, hid⟩
      exact frame e he hid
    rcases Bool.eq_false_or_eq_true
        (LocalStorage.delete (LocalStorage.delete entries error_id).1 error_id).2.2 with
      hb | hb
    · exact absurd ((key _).mp hb) this
    · exact hb
  · unfold TurbopufferStorage.delete
    cases hw : m.write_fails <;> simp [hw]

/-- Witness for delete_return_semantics on a concrete store and medium. -/
theorem delete_return_semantics_witness :
    (LocalStorage.delete [entryA] "id-a".toList).2.2 = true :=
  (delete_return_semantics [entryA] "id-a".toList mediumOK).1.mpr
    ⟨entryA, by decide⟩

/-- C7: committing an entry whose id is fresh appends it to the local
collection: afterwards get_all holds exactly one equal record, count has
grown by one, every previously stored entry is still present, and the new
entry is last. -/
theorem local_commit_appends (entries : List ErrorEntry) (e : ErrorEntry)
    (h : ∀ x ∈ entries, x.id ≠ e.id) :
    (LocalStorage.get_all (LocalStorage.commit entries e)).count e = 1 ∧
    LocalStorage.count (LocalStorage.commit entries e) =
      LocalStorage.count entries + 1 ∧
    (∀ x ∈ entries, x ∈ LocalStorage.get_all (LocalStorage.commit entries e)) ∧
    (LocalStorage.get_all (LocalStorage.commit entries e)).getLast? = some e := by
  have hnot : e ∉ entries := fun he => h e he rfl
  refine ⟨?_, ?_, ?_, ?_⟩
  · show (entries ++ [e]).count e = 1
    rw [List.count_append, List.count_eq_zero.mpr hnot]
    simp [List.count_cons]
  · show (entries ++ [e]).length = entries.length + 1
    simp
  · intro x hx
    show x ∈ entries ++ [e]
    exact List.mem_append_left _ hx
  · exact List.getLast?_concat entries

/-- Witness for local_commit_appends on a concrete store. -/
theorem local_commit_appends_witness :
    (LocalStorage.get_all (LocalStorage.commit [entryA] entryB)).count entryB = 1 ∧
    LocalStorage.count (LocalStorage.commit [entryA] entryB) =
      LocalStorage.count [entryA] + 1 :=
  ⟨(local_commit_appends [entryA] entryB (by decide)).1,
   (local_commit_appends [entryA] entryB (by decide)).2.1⟩

/-- The local scoring rule as the specification words it: 0.9 base score
on a substring match in either direction, otherwise twice the total
matching-block length over the sum of both string lengths; the message
ratio weighted by 0.3 as a secondary score; and the combined score
max(base, base + weighted message score). -/
def spec_combined_score (query : List Char) (e : ErrorEntry) : ℚ :=
  let ql := pyLower query
  let el := pyLower e.error_text
  let base_score : ℚ :=
    if pyIn ql el || pyIn el ql then 9/10
    else 2 * ((matching_total ql el (ql.length + el.length + 1)
        0 ql.length 0 el.length : ℚ)) / ((ql.length : ℚ) + (el.length : ℚ))
  let weighted_message_score := ratioOf ql (pyLower e.message) * (3/10)
  max base_score (base_score + weighted_message_score)

/-- C1: for every query and entry, the score the local backend computes
equals the specification's formula. -/
theorem local_score_matches_spec (query : List Char) (e : ErrorEntry) :
    entry_combined_score query e = spec_combined_score query e := by
  unfold entry_combined_score spec_combined_score entry_base_score
  by_cases h : (pyIn (pyLower query) (pyLower e.error_text) ||
      pyIn (pyLower e.error_text) (pyLower query)) = true
  · simp only [h, if_pos]
  · have hql : pyLower query ≠ [] := by
      intro hnil
      have : pyIn (pyLower query) (pyLower e.error_text) = true := by
        simp [pyIn, hnil]
      simp [this] at h
    have hlen : (pyLower query).length + (pyLower e.error_text).length ≠ 0 := by
      intro h0
      exact hql (List.eq_nil_of_length_eq_zero (by omega))
    simp only [h, if_neg, Bool.not_eq_true]
    unfold ratioOf
    simp only [hlen, ne_eq, not_false_eq_true, if_pos]

/-- C2: local search returns at most limit results, sorted descending by
score, all strictly above the 0.2 threshold; it returns the empty list
when no stored entry clears the threshold and when the store is empty. -/
theorem local_search_result_shape (entries : List ErrorEntry)
    (query : List Char) (limit : Nat) :
    (LocalStorage.search entries query limit).length ≤ limit ∧
    List.Sorted (fun r1 r2 : SearchResult => r2.score ≤ r1.score)
      (LocalStorage.search entries query limit) ∧
    (∀ r ∈ LocalStorage.search entries query limit, (1/5 : ℚ) < r.score) ∧
    ((∀ e ∈ entries, ¬ ((1/5 : ℚ) < entry_combined_score query e)) →
      LocalStorage.search entries query limit = []) ∧
    (entries = [] → LocalStorage.search entries query limit = []) := by
  set f : ErrorEntry → Option SearchResult := fun e =>
    let combined_score := entry_combined_score query e
    if (1/5 : ℚ) < combined_score then some ⟨e, combined_score⟩ else none with hf
  set le : SearchResult → SearchResult → Bool :=
    fun r1 r2 => decide (r2.score ≤ r1.score) with hle
  have hsearch : LocalStorage.search entries query limit =
      ((entries.filterMap f).mergeSort le).take limit := rfl
  refine ⟨?_, ?_, ?_, ?_, ?_⟩
  · rw [hsearch]
    exact List.length_take_le limit _
  · rw [hsearch]
    have hsorted := @List.sorted_mergeSort SearchResult le
      (fun a b c hab hbc => by
        simp only [hle, decide_eq_true_eq] at *
        exact le_trans hbc hab)
      (fun a b => by
        simp only [hle, Bool.or_eq_true, decide_eq_true_eq]
        exact le_total b.score a.score)
      (entries.filterMap f)
    have hp : ((entries.filterMap f).mergeSort le).Pairwise
        (fun r1 r2 : SearchResult => r2.score ≤ r1.score) :=
      hsorted.imp (fun hab => by simpa [hle] using hab)
    exact hp.sublist (List.take_sublist _ _)
  · intro r hr
    rw [hsearch] at hr
    have hr2 : r ∈ (entries.filterMap f).mergeSort le := List.mem_of_mem_take hr
    have hr3 : r ∈ entries.filterMap f :=
      (List.mergeSort_perm (entries.filterMap f) le).mem_iff.mp hr2
    obtain ⟨e, _, heq⟩ := List.mem_filterMap.mp hr3
    rw [hf] at heq
    simp only at heq
    split at heq
    · rename_i hc
      cases heq
      exact hc
    · exact absurd heq (by simp)
  · intro hall
    rw [hsearch]
    have hnil : entries.filterMap f = [] := by
      rw [List.filterMap_eq_nil_iff]
      intro e he
      show (if (1/5 : ℚ) < entry_combined_score query e then
          some (SearchResult.mk e (entry_combined_score query e)) else none) = none
      rw [if_neg (hall e he)]
    rw [hnil, List.mergeSort_nil, List.take_nil]
  · intro he
    subst he
    rw [hsearch]
    simp [List.mergeSort_nil]

/-- Witness for local_search_result_shape: an empty store searches to the
empty result list. -/
theorem local_search_result_shape_witness :
    LocalStorage.search [] "ModuleNotFoundError".toList 5 = [] :=
  (local_search_result_shape [] "ModuleNotFoundError".toList 5).2.2.2.2 rfl

/-- Splitting a separator-free chunk yields the single accumulated piece. -/
lemma pySplitAux_no_sep (sep : Char) (t : List Char) :
    sep ∉ t → ∀ acc : List Char, pySplitAux sep t acc = [acc.reverse ++ t] := by
  induction t with
  | nil => intro _ acc; simp [pySplitAux]
  | cons c cs ih =>
    intro h acc
    have hc : c ≠ sep := fun hcs => h (hcs ▸ List.mem_cons_self c cs)
    rw [pySplitAux, if_neg hc,
      ih (fun hm => h (List.mem_cons_of_mem c hm)) (c :: acc)]
    simp

/-- Splitting past a separator-free chunk followed by the separator peels
off that chunk. -/
lemma pySplitAux_chunk (sep : Char) (t rest : List Char) :
    sep ∉ t → ∀ acc : List Char, pySplitAux sep (t ++ sep :: rest) acc =
      (acc.reverse ++ t) :: pySplitAux sep rest [] := by
  induction t with
  | nil => intro _ acc; simp [pySplitAux]
  | cons c cs ih =>
    intro h acc
    have hc : c ≠ sep := fun hcs => h (hcs ▸ List.mem_cons_self c cs)
    rw [List.cons_append, pySplitAux, if_neg hc,
      ih (fun hm => h (List.mem_cons_of_mem c hm)) (c :: acc)]
    simp

/-- Splitting inverts joining for a nonempty list of separator-free
chunks. -/
lemma pySplit_pyJoin (sep : Char) (tags : List (List Char))
    (h : ∀ t ∈ tags, sep ∉ t) (hne : tags ≠ []) :
    pySplit sep (pyJoin sep tags) = tags := by
  induction tags with
  | nil => exact absurd rfl hne
  | cons t ts ih =>
    cases ts with
    | nil =>
      unfold pySplit pyJoin
      rw [pySplitAux_no_sep sep t (h t (List.mem_cons_self t [])) ([] : List Char)]
      simp
    | cons t2 ts2 =>
      unfold pySplit
      rw [show pyJoin sep (t :: t2 :: ts2) = t ++ sep :: pyJoin sep (t2 :: ts2)
        from rfl]
      rw [pySplitAux_chunk sep t _ (h t (List.mem_cons_self t _)) []]
      have := ih (fun x hx => h x (List.mem_cons_of_mem t hx)) (by simp)
      unfold pySplit at this
      rw [this]
      simp

/-- A filterMap that fixes every member of a list is the identity. -/
lemma filterMap_fixed {α : Type} (f : α → Option α) (l : List α)
    (h : ∀ x ∈ l, f x = some x) : l.filterMap f = l := by
  induction l with
  | nil => rfl
  | cons x xs ih =>
    rw [List.filterMap_cons, h x (List.mem_cons_self x xs),
      ih (fun y hy => h y (List.mem_cons_of_mem x hy))]

/-- C9 counterexample: the comma-free tag list [" a"] does not survive
the remote encode/decode cycle - decoding strips the leading space. -/
theorem tags_roundtrip_counterexample :
    tagsDecode (tagsEncode [[' ', 'a']]) = [['a']] ∧
    tagsDecode (tagsEncode [[' ', 'a']]) ≠ [[' ', 'a']] := by
  constructor
  · decide
  · decide

/-- C9 amended: a tag list round-trips through the remote comma-joined
encoding when no tag contains a comma, every tag is nonempty, and no tag
carries leading or trailing whitespace (decoding strips each piece and
drops empty ones). -/
theorem tags_roundtrip_stripped (tags : List (List Char))
    (h : ∀ t ∈ tags, (',' ∉ t) ∧ pyStrip t = t ∧ t ≠ []) :
    tagsDecode (tagsEncode tags) = tags := by
  cases tags with
  | nil => decide
  | cons t ts =>
    unfold tagsEncode
    rw [if_neg (by simp)]
    unfold tagsDecode
    rw [pySplit_pyJoin ',' (t :: ts) (fun x hx => (h x hx).1) (by simp)]
    apply filterMap_fixed
    intro x hx
    obtain ⟨-, hstrip, hne⟩ := h x hx
    show (if (pyStrip x).isEmpty then none else some (pyStrip x)) = some x
    rw [hstrip, if_neg (by simpa using hne)]

/-- Witness for tags_roundtrip_stripped on concrete comma-free, stripped
tags. -/
theorem tags_roundtrip_stripped_witness :
    tagsDecode (tagsEncode ["python".toList, "web-dev".toList]) =
      ["python".toList, "web-dev".toList] :=
  tags_roundtrip_stripped ["python".toList, "web-dev".toList] (by decide)

/-- Zero padding always produces the requested width. -/
lemma padDigits_length (w n : Nat) : (padDigits w n).length = w := by
  induction w generalizing n with
  | zero => rfl
  | succ w ih => simp [padDigits, ih]

/-- One-digit facts, checked by evaluation over the ten digits. -/
lemma digit_char_facts :
    ∀ d < 10, isDigitChar (digitChar d) = true ∧ digitVal (digitChar d) = d := by
  decide

/-- Every character of a zero-padded number is a digit. -/
lemma padDigits_all_digits (w n : Nat) :
    (padDigits w n).all isDigitChar = true := by
  induction w generalizing n with
  | zero => rfl
  | succ w ih =>
    rw [padDigits, List.all_append, ih]
    simpa using (digit_char_facts (n % 10) (Nat.mod_lt n (by norm_num))).1

/-- Reading the zero-padded digits back recovers the number modulo
10 ^ width. -/
lemma valDigits_padDigits (w n : Nat) :
    (padDigits w n).foldl (fun acc c => acc * 10 + digitVal c) 0 = n % 10 ^ w := by
  induction w generalizing n with
  | zero => simp [padDigits, Nat.mod_one]
  | succ w ih =>
    rw [padDigits, List.foldl_append, ih]
    simp only [List.foldl_cons, List.foldl_nil]
    rw [(digit_char_facts (n % 10) (Nat.mod_lt n (by norm_num))).2]
    have h1 : n / 10 % 10 ^ w = n % (10 * 10 ^ w) / 10 :=
      (Nat.mod_mul_right_div_self n 10 (10 ^ w)).symm
    have h2 : n % 10 = n % (10 * 10 ^ w) % 10 :=
      (Nat.mod_mod_of_dvd n ⟨10 ^ w, rfl⟩).symm
    have h3 : (10 : Nat) ^ (w + 1) = 10 * 10 ^ w := by ring
    rw [h1, h2, h3]
    omega

/-- parseFixedNat inverts padDigits when the number fits the width. -/
lemma parseFixedNat_padDigits (w n : Nat) (rest : List Char)
    (h : n < 10 ^ w) :
    parseFixedNat w (padDigits w n ++ rest) = some (n, rest) := by
  unfold parseFixedNat
  have hl : (padDigits w n).length = w := padDigits_length w n
  rw [List.take_left' hl, List.drop_left' hl]
  simp [hl, padDigits_all_digits w n, valDigits_padDigits, Nat.mod_eq_of_lt h]

/-- parseFixedNat consumes exactly a zero-padded number. -/
lemma parseFixedNat_padDigits_nil (w n : Nat) (h : n < 10 ^ w) :
    parseFixedNat w (padDigits w n) = some (n, []) := by
  have := parseFixedNat_padDigits w n [] h
  rwa [List.append_nil] at this

/-- expectChar succeeds on its own character. -/
lemma expectChar_cons (c : Char) (rest : List Char) :
    expectChar c (c :: rest) = some rest := by
  simp [expectChar]

set_option maxHeartbeats 1000000 in
/-- Parsing inverts formatting for every valid datetime. -/
lemma fromIso_isoformat (d : PyDateTime) (h : d.Valid) :
    fromIsoChars (isoformat d) = some d := by
  obtain ⟨y, mo, da, hh, mi, ss, us⟩ := d
  obtain ⟨h1, h2, h3, h4, h5, h6, h7, h8, h9, h10⟩ := h
  simp only at h1 h2 h3 h4 h5 h6 h7 h8 h9 h10
  have hy : y < 10 ^ 4 := by norm_num; omega
  have hmo : mo < 10 ^ 2 := by norm_num; omega
  have hda : da < 10 ^ 2 := by norm_num; omega
  have hhh : hh < 10 ^ 2 := by norm_num; omega
  have hmi : mi < 10 ^ 2 := by norm_num; omega
  have hss : ss < 10 ^ 2 := by norm_num; omega
  have hus6 : us < 10 ^ 6 := by norm_num; omega
  unfold isoformat fromIsoChars
  simp only
  by_cases hus : us = 0
  · subst hus
    rw [if_pos rfl, List.append_nil]
    rw [parseFixedNat_padDigits 4 y _ hy]
    simp only [Option.bind_eq_bind, Option.some_bind]
    rw [expectChar_cons]
    simp only [Option.some_bind]
    rw [parseFixedNat_padDigits 2 mo _ hmo]
    simp only [Option.some_bind]
    rw [expectChar_cons]
    simp only [Option.some_bind]
    rw [parseFixedNat_padDigits 2 da _ hda]
    simp only [Option.some_bind]
    rw [expectChar_cons]
    simp only [Option.some_bind]
    rw [parseFixedNat_padDigits 2 hh _ hhh]
    simp only [Option.some_bind]
    rw [expectChar_cons]
    simp only [Option.some_bind]
    rw [parseFixedNat_padDigits 2 mi _ hmi]
    simp only [Option.some_bind]
    rw [expectChar_cons]
    simp only [Option.some_bind]
    rw [parseFixedNat_padDigits_nil 2 ss hss]
    simp only [Option.some_bind]
    rw [List.isEmpty_nil, if_pos rfl]
  · rw [if_neg hus]
    rw [parseFixedNat_padDigits 4 y _ hy]
    simp only [Option.bind_eq_bind, Option.some_bind]
    rw [expectChar_cons]
    simp only [Option.some_bind]
    rw [parseFixedNat_padDigits 2 mo _ hmo]
    simp only [Option.some_bind]
    rw [expectChar_cons]
    simp only [Option.some_bind]
    rw [parseFixedNat_padDigits 2 da _ hda]
    simp only [Option.some_bind]
    rw [expectChar_cons]
    simp only [Option.some_bind]
    rw [parseFixedNat_padDigits 2 hh _ hhh]
    simp only [Option.some_bind]
    rw [expectChar_cons]
    simp only [Option.some_bind]
    rw [parseFixedNat_padDigits 2 mi _ hmi]
    simp only [Option.some_bind]
    rw [expectChar_cons]
    simp only [Option.some_bind]
    rw [parseFixedNat_padDigits 2 ss _ hss]
    simp only [Option.some_bind]
    rw [List.isEmpty_cons, if_neg Bool.false_ne_true]
    rw [expectChar_cons]
    simp only [Option.some_bind]
    rw [parseFixedNat_padDigits_nil 6 us hus6]
    simp only [Option.some_bind]
    rw [List.isEmpty_nil, if_pos rfl]

/-- One entry survives the JSON row encoding and validation. -/
lemma localRow_roundtrip (e : ErrorEntry) (h : e.created_at.Valid) :
    localRowToEntry (entryToLocalRow e) = some e := by
  unfold localRowToEntry entryToLocalRow
  rw [fromIso_isoformat e.created_at h]
  rfl

/-- C8: writing a collection of entries with valid timestamps to the
local persisted layout and reading it back yields field-for-field equal
records (at full microsecond precision, hence to the minute). -/
theorem local_file_roundtrip (entries : List ErrorEntry)
    (h : ∀ e ∈ entries, e.created_at.Valid) :
    LocalStorage.load_entries (LocalStorage.save_entries entries) =
      some entries := by
  unfold LocalStorage.load_entries LocalStorage.save_entries
  induction entries with
  | nil => rfl
  | cons e es ih =>
    rw [List.map_cons, List.mapM_cons]
    rw [localRow_roundtrip e (h e (List.mem_cons_self e es))]
    rw [ih (fun x hx => h x (List.mem_cons_of_mem e hx))]
    rfl

/-- Witness for local_file_roundtrip on two concrete entries. -/
theorem local_file_roundtrip_witness :
    LocalStorage.load_entries (LocalStorage.save_entries [entryA, entryB]) =
      some [entryA, entryB] :=
  local_file_roundtrip [entryA, entryB] (by decide)
